import Mathlib

/-
Verification development for the telegram-cowork-bridge repository core:
the session-aware bridge in skill/index.ts (claude_code_execute,
claude_code_status, claude_code_cancel, claude_code_clear_session and their
helpers escapeForShell and sanitizePrompt), plus the Router decision
function described by the documentation.

The TypeScript source is shallowly embedded as executable Lean definitions.
External effects are explicit parameters:
  - the subprocess run (execAsync) is an outcome value, either an error
    message (non-zero exit, timeout, kill) or a stdout/stderr pair;
  - the JavaScript builtin JSON.parse is a parameter returning an optional
    dynamic value (none models a parse exception);
  - clock reads are numeric parameters.
Dynamic JavaScript values arising from JSON.parse are modelled by Dyn,
with JavaScript truthiness, property access (throwing on null), and
template-literal stringification modelled explicitly.
-/

namespace CoworkBridge

/-! Dynamic (JSON) values and JavaScript semantics helpers. -/

inductive Dyn where
  | null
  | bool (b : Bool)
  | num (n : Int)
  | str (s : String)
  | arr (elems : List Dyn)
  | obj (fields : List (String × Dyn))

/-- JavaScript truthiness of a JSON value (NaN cannot arise from our Int model). -/
def truthy : Dyn → Bool
  | .null => false
  | .bool b => b
  | .num n => n != 0
  | .str s => s != ""
  | .arr _ => true
  | .obj _ => true

/-- Truthiness of a possibly-undefined value (none models undefined). -/
def truthyOpt : Option Dyn → Bool
  | none => false
  | some v => truthy v

mutual

/-- Stringification of one array element under Array.prototype.toString:
null elements become the empty string. -/
def jsElem : Dyn → String
  | .null => ""
  | .bool b => if b then "true" else "false"
  | .num n => toString n
  | .str s => s
  | .obj _ => "[object Object]"
  | .arr xs => jsArrJoin xs

/-- Comma join of array elements, as JavaScript Array.prototype.toString. -/
def jsArrJoin : List Dyn → String
  | [] => ""
  | [x] => jsElem x
  | x :: y :: rest => jsElem x ++ "," ++ jsArrJoin (y :: rest)

end

/-- Template-literal stringification of a dynamic value. -/
def jsToString : Dyn → String
  | .null => "null"
  | .bool b => if b then "true" else "false"
  | .num n => toString n
  | .str s => s
  | .obj _ => "[object Object]"
  | .arr xs => jsArrJoin xs

/-- Association lookup, as Map.prototype.get (none models undefined). -/
def mapGet {α : Type} : List (String × α) → String → Option α
  | [], _ => none
  | (k, v) :: rest, key => if k = key then some v else mapGet rest key

/-- Insert or overwrite, as Map.prototype.set. -/
def mapSet {α : Type} : List (String × α) → String → α → List (String × α)
  | [], key, v => [(key, v)]
  | (k, w) :: rest, key, v =>
      if k = key then (key, v) :: rest else (k, w) :: mapSet rest key v

/-- Removal, as Map.prototype.delete (the return value is (mapGet m key).isSome). -/
def mapDelete {α : Type} : List (String × α) → String → List (String × α)
  | [], _ => []
  | (k, v) :: rest, key =>
      if k = key then mapDelete rest key else (k, v) :: mapDelete rest key

/-- Property access on a dynamic value. Reading a property of null throws a
TypeError (modelled as the error case); on non-objects it yields undefined. -/
def getProp (v : Dyn) (key : String) : Except String (Option Dyn) :=
  match v with
  | .null => .error ("Cannot read properties of null, reading " ++ key)
  | .obj fields => .ok (mapGet fields key)
  | _ => .ok none

/-- The JavaScript expression v.k1 or-else v.k2 or-else ... or-else dflt:
a chain of property reads combined with the logical-or operator, whose last
operand is the given default expression. Short-circuits on the first truthy
value; a property read may throw (null receiver). -/
def propChain (v : Dyn) : List String → Dyn → Except String Dyn
  | [], dflt => .ok dflt
  | k :: ks, dflt => do
    let a ← getProp v k
    match a with
    | some w => if truthy w then pure w else propChain v ks dflt
    | none => propChain v ks dflt

/-- The JavaScript expression v.k1 or-else v.k2 or-else ... with no default:
the value of the last operand is kept even when falsy or undefined. -/
def propChainOpt (v : Dyn) : List String → Except String (Option Dyn)
  | [] => .ok none
  | [k] => getProp v k
  | k :: ks => do
    let a ← getProp v k
    match a with
    | some w => if truthy w then pure (some w) else propChainOpt v ks
    | none => propChainOpt v ks

/-! Data model from skill/index.ts. -/

/-- SessionInfo record (index.ts lines 26-31). Date values are Nat clock
readings; sessionId holds the dynamic value extracted from the parsed
response, exactly as the untyped JavaScript stores it. -/
structure SessionInfo where
  sessionId : Dyn
  startedAt : Nat
  lastActivity : Nat
  messageCount : Nat

/-- ExecuteOptions (index.ts lines 18-24); absent optional fields are none,
and newSession absent is equivalent to false under the negation applied to it. -/
structure ExecuteOptions where
  newSession : Bool := false
  workingDir : Option String := none
  allowedTools : Option (List String) := none
  timeout : Option Nat := none
  appendSystemPrompt : Option String := none

/-- ClaudeCodeResult (index.ts lines 10-16). output is dynamic because the
untyped code can place any extracted JSON field there. -/
structure ClaudeCodeResult where
  success : Bool
  output : Dyn
  sessionId : Option Dyn := none
  error : Option String := none
  executionTime : Option Nat := none

def DEFAULT_TOOLS : List String :=
  ["Read", "Write", "Edit", "Bash", "Glob", "Grep", "WebFetch", "WebSearch"]

def DEFAULT_TIMEOUT : Nat := 300000

def MAX_BUFFER : Nat := 10 * 1024 * 1024

/-- The process-wide mutable tables (index.ts lines 37-38): per-user sessions
and in-flight child processes (handles modelled as opaque numbers). -/
structure BridgeState where
  sessions : List (String × SessionInfo)
  activeProcesses : List (String × Nat)

/-! escapeForShell (index.ts lines 52-59). -/

/-- One global single-character regex replacement, String.prototype.replace
with the g flag. -/
def replace1 (target : Char) (repl : List Char) : List Char → List Char
  | [] => []
  | c :: cs => (if c = target then repl else [c]) ++ replace1 target repl cs

/-- The backquote character (code point 96). -/
def bq : Char := Char.ofNat 96

/-- The five chained replacements of escapeForShell, in source order:
backslash, double quote, dollar, backquote, exclamation mark. -/
def escapeChars (s : List Char) : List Char :=
  replace1 '!' ['\\', '!']
    (replace1 bq ['\\', bq]
      (replace1 '$' ['\\', '$']
        (replace1 '"' ['\\', '"']
          (replace1 '\\' ['\\', '\\'] s))))

def escapeForShell (s : String) : String := String.mk (escapeChars s.data)

/-- Per-character description of escapeChars, used by the lemmas below. -/
def escChar (c : Char) : List Char :=
  if c = '\\' ∨ c = '"' ∨ c = '$' ∨ c = bq ∨ c = '!' then ['\\', c] else [c]

/-! sanitizePrompt (index.ts lines 61-68). -/

/-- Anchored match of a list of character predicates at the head of the
input; on success returns the remaining characters. -/
def matchPat : List (Char → Bool) → List Char → Option (List Char)
  | [], rest => some rest
  | _ :: _, [] => none
  | p :: ps, c :: cs => if p c then matchPat ps cs else none

/-- One global-replace-with-empty pass, scanning left to right and resuming
after each non-overlapping match, as String.prototype.replace with /g does.
The fuel starts at the input length; each step consumes at least one
character, so the zero-fuel case with a nonempty list is unreachable. -/
def stripAux (p0 : Char → Bool) (ps : List (Char → Bool)) : Nat → List Char → List Char
  | _, [] => []
  | 0, l => l
  | fuel + 1, c :: cs =>
    if p0 c then
      match matchPat ps cs with
      | some rest => stripAux p0 ps fuel rest
      | none => c :: stripAux p0 ps fuel cs
    else c :: stripAux p0 ps fuel cs

/-- Case-insensitive single-character matcher (the i regex flag). -/
def charCI (a : Char) : Char → Bool := fun c => c.toLower = a.toLower

/-- The regex whitespace class over the ASCII range (the characters a
backslash-s can match in the prompts considered here). -/
def jsSpace (c : Char) : Bool :=
  c = ' ' || c = '\t' || c = '\n' || c = '\r' || c = '\x0b' || c = '\x0c'

/-- Global case-insensitive removal of a literal pattern. -/
def stripLit (pat : String) (s : List Char) : List Char :=
  match pat.data.map charCI with
  | [] => s
  | p :: ps => stripAux p ps s.length s

/-- Global removal of the pattern dash, p, whitespace (the third replace). -/
def stripPFlag (s : List Char) : List Char :=
  stripAux (charCI '-') [charCI 'p', jsSpace] s.length s

/-- sanitizePrompt: the three chained global case-insensitive removals of
index.ts lines 63-66, in source order. -/
def sanitizePrompt (prompt : String) : String :=
  String.mk
    (stripPFlag
      (stripLit "--dangerously"
        (stripLit "--allowedTools" prompt.data)))

/-! Command construction (index.ts lines 82-99). -/

/-- The command string before session linkage: prompt sanitization and
escaping, the output-format flag, the allowedTools argument (caller list or
default, joined by commas), and the optional append-system-prompt flag
(skipped when the option is absent or the empty string, which is falsy). -/
def buildBase (prompt : String) (options : ExecuteOptions) : String :=
  let cleanPrompt := sanitizePrompt prompt
  let tools := options.allowedTools.getD DEFAULT_TOOLS
  let toolsArg := "--allowedTools \"" ++ String.intercalate "," tools ++ "\""
  let cmd := "claude -p \"" ++ escapeForShell cleanPrompt ++ "\" --output-format json " ++ toolsArg
  match options.appendSystemPrompt with
  | some s =>
      if s = "" then cmd
      else cmd ++ " --append-system-prompt \"" ++ escapeForShell s ++ "\""
  | none => cmd

/-- The full command: the resume flag is appended exactly when a session
record exists for the user and newSession is not set (index.ts lines 96-99).
The stored dynamic token is interpolated by template-literal stringification. -/
def buildCommand (prompt userId : String) (options : ExecuteOptions)
    (sessions : List (String × SessionInfo)) : String :=
  let base := buildBase prompt options
  match mapGet sessions userId with
  | some sess =>
      if options.newSession then base
      else base ++ " --resume " ++ jsToString sess.sessionId
  | none => base

/-- The subprocess options record (index.ts lines 103-116): bounded buffer,
timeout defaulting under JavaScript falsiness, optional working directory,
and the environment override forcing JSON output. -/
structure ExecOptionsRec where
  maxBuffer : Nat
  timeout : Nat
  cwd : Option String
  outputFormatEnv : String

def buildExecOptions (options : ExecuteOptions) : ExecOptionsRec :=
  { maxBuffer := MAX_BUFFER,
    timeout :=
      match options.timeout with
      | some t => if t = 0 then DEFAULT_TIMEOUT else t
      | none => DEFAULT_TIMEOUT,
    cwd :=
      match options.workingDir with
      | some d => if d = "" then none else some d
      | none => none,
    outputFormatEnv := "json" }

/-- Observable interaction with the external world in one execute call:
whether execAsync was reached, and with which command and options. -/
structure ExecTrace where
  invoked : Bool
  command : String
  options : ExecOptionsRec

/-- The catch branch (index.ts lines 161-171): success false, empty output,
the thrown message (or the fixed fallback when that message is falsy). -/
def failureResult (e : String) (elapsed : Nat) : ClaudeCodeResult :=
  { success := false,
    output := Dyn.str "",
    sessionId := none,
    error := some (if e = "" then "Claude Code execution failed" else e),
    executionTime := some elapsed }

/-- Session-table update after a truthy session token was extracted
(index.ts lines 134-149): mutate the existing record or insert a fresh one. -/
def updateSessions (tbl : List (String × SessionInfo)) (userId : String)
    (sid : Dyn) (now : Nat) : List (String × SessionInfo) :=
  match mapGet tbl userId with
  | some sess =>
      mapSet tbl userId
        { sess with
          lastActivity := now
          messageCount := sess.messageCount + 1
          sessionId := sid }
  | none =>
      mapSet tbl userId
        { sessionId := sid, startedAt := now, lastActivity := now, messageCount := 1 }

/-- The try/catch body after the command is issued (index.ts lines 118-171):
on a subprocess error the failure result; on success, JSON parse with raw
fallback, session-token extraction, conditional session update, output-field
extraction, and the success record. A thrown property read (null receiver)
is caught by the outer catch, after any table mutation already performed. -/
def execOutcome (jsonParse : String → Option Dyn)
    (outcome : Except String (String × String))
    (startTime endTime : Nat) (userId : String)
    (tbl : List (String × SessionInfo)) :
    ClaudeCodeResult × List (String × SessionInfo) :=
  match outcome with
  | .error e => (failureResult e (endTime - startTime), tbl)
  | .ok (stdout, _stderr) =>
    let result :=
      match jsonParse stdout with
      | some v => v
      | none => Dyn.obj [("content", Dyn.str stdout)]
    match propChainOpt result ["sessionId", "session_id"] with
    | .error e => (failureResult e (endTime - startTime), tbl)
    | .ok sessionId =>
      let tbl2 :=
        if truthyOpt sessionId then
          updateSessions tbl userId (sessionId.getD Dyn.null) endTime
        else tbl
      match propChain result ["result", "content", "response"] (Dyn.str stdout) with
      | .error e => (failureResult e (endTime - startTime), tbl2)
      | .ok output =>
        ({ success := true, output := output, sessionId := sessionId,
           error := none, executionTime := some (endTime - startTime) }, tbl2)

/-- claude_code_execute (index.ts lines 74-172). jsonParse models the
JSON.parse builtin; outcome models what execAsync did with the constructed
command; startTime and endTime are the two clock readings. Returns the
result value, the updated process-wide state, and the interaction trace. -/
def claude_code_execute (jsonParse : String → Option Dyn)
    (outcome : Except String (String × String))
    (startTime endTime : Nat)
    (prompt userId : String) (options : ExecuteOptions)
    (st : BridgeState) : ClaudeCodeResult × BridgeState × ExecTrace :=
  let cmd := buildCommand prompt userId options st.sessions
  let trace : ExecTrace :=
    { invoked := true, command := cmd, options := buildExecOptions options }
  let r := execOutcome jsonParse outcome startTime endTime userId st.sessions
  (r.1, { st with sessions := r.2 }, trace)

/-- claude_code_status (index.ts lines 178-180): pure lookup. -/
def claude_code_status (userId : String) (st : BridgeState) : Option SessionInfo :=
  mapGet st.sessions userId

/-- claude_code_cancel (index.ts lines 182-190): if an in-flight process is
recorded for the user, signal it and drop the handle, returning true;
otherwise return false with the state unchanged. -/
def claude_code_cancel (userId : String) (st : BridgeState) : Bool × BridgeState :=
  match mapGet st.activeProcesses userId with
  | some _ =>
      (true, { st with activeProcesses := mapDelete st.activeProcesses userId })
  | none => (false, st)

/-- claude_code_clear_session (index.ts lines 192-194): Map.prototype.delete,
returning whether a record existed. -/
def claude_code_clear_session (userId : String) (st : BridgeState) :
    Bool × BridgeState :=
  ((mapGet st.sessions userId).isSome,
   { st with sessions := mapDelete st.sessions userId })

/-! Reachable bridge states: the empty tables closed under the four public
operations with arbitrary parameters and external behaviours. -/

inductive Reachable : BridgeState → Prop where
  | empty : Reachable { sessions := [], activeProcesses := [] }
  | step_execute (jsonParse : String → Option Dyn)
      (outcome : Except String (String × String))
      (startTime endTime : Nat) (prompt userId : String)
      (options : ExecuteOptions) (st : BridgeState) :
      Reachable st →
      Reachable (claude_code_execute jsonParse outcome startTime endTime
        prompt userId options st).2.1
  | step_cancel (userId : String) (st : BridgeState) :
      Reachable st → Reachable (claude_code_cancel userId st).2
  | step_clear (userId : String) (st : BridgeState) :
      Reachable st → Reachable (claude_code_clear_session userId st).2

/-! Router component. -/

/-- Case-insensitive substring test at every position. -/
def containsCIAux (pat : List (Char → Bool)) : List Char → Bool
  | [] => (matchPat pat []).isSome
  | c :: cs => (matchPat pat (c :: cs)).isSome || containsCIAux pat cs

/-- Case-insensitive substring containment of pat in text. -/
def containsCI (text pat : String) : Bool :=
  containsCIAux (pat.data.map charCI) text.data

/-- Routing configuration: the two trigger pattern sets and the fallback. -/
structure RouterConfig where
  alwaysDirect : List String
  routeToAgent : List String
  defaultRoute : Bool

/-- Modelled from the spec: the Router component (bridge/routing.py in the
documented repository layout) is not included under src, only described by
the documentation. Per the spec, matching is case-insensitive keyword or
substring matching; a message matching any always-direct pattern is handled
directly (false) regardless of other matches, otherwise an agent-trigger
match routes to the agent (true), otherwise the configured fallback is used. -/
def routerRoute (cfg : RouterConfig) (text : String) : Bool :=
  if cfg.alwaysDirect.any (fun p => containsCI text p) then false
  else if cfg.routeToAgent.any (fun p => containsCI text p) then true
  else cfg.defaultRoute

/-! Shell double-quote reading (the specification side of the round-trip
claim): how a POSIX shell reads the characters placed between double quotes.
A backslash escapes only dollar, backquote, double quote, and backslash;
before any other character the backslash is kept literally. -/

def dqUnescape : List Char → List Char
  | [] => []
  | c :: rest =>
    if c = '\\' then
      match rest with
      | [] => ['\\']
      | d :: rest2 =>
        if d = '$' ∨ d = bq ∨ d = '"' ∨ d = '\\' then d :: dqUnescape rest2
        else '\\' :: d :: dqUnescape rest2
    else c :: dqUnescape rest

def dqUnescapeStr (s : String) : String := String.mk (dqUnescape s.data)

/-- The invariant demanded of every returned result value: a failed result
carries empty output and a non-empty error string, a successful result
carries no error. -/
def ResultInvariant (r : ClaudeCodeResult) : Prop :=
  (r.success = false → r.output = Dyn.str "" ∧ ∃ m, r.error = some m ∧ m ≠ "") ∧
  (r.success = true → r.error = none)

/-! Helper lemmas about the map model. -/

theorem mapGet_mapSet_self {α : Type} (m : List (String × α)) (k : String) (v : α) :
    mapGet (mapSet m k v) k = some v := by
  induction m with
  | nil => simp [mapSet, mapGet]
  | cons e rest ih =>
    obtain ⟨k0, v0⟩ := e
    by_cases h : k0 = k
    · subst h; simp [mapSet, mapGet]
    · simp [mapSet, mapGet, h, ih]

theorem mapGet_mapDelete_self {α : Type} (m : List (String × α)) (k : String) :
    mapGet (mapDelete m k) k = none := by
  induction m with
  | nil => rfl
  | cons e rest ih =>
    obtain ⟨k0, v0⟩ := e
    by_cases h : k0 = k
    · simp [mapDelete, h, ih]
    · simp [mapDelete, mapGet, h, ih]

/-! Helper lemmas about escaping. -/

theorem replace1_append (t : Char) (r xs ys : List Char) :
    replace1 t r (xs ++ ys) = replace1 t r xs ++ replace1 t r ys := by
  induction xs with
  | nil => rfl
  | cons c cs ih => simp [replace1, ih]

theorem escapeChars_append (xs ys : List Char) :
    escapeChars (xs ++ ys) = escapeChars xs ++ escapeChars ys := by
  simp [escapeChars, replace1_append]

theorem escapeChars_cons (c : Char) (l : List Char) :
    escapeChars (c :: l) = escChar c ++ escapeChars l := by
  have h : escapeChars (c :: l) = escapeChars [c] ++ escapeChars l := by
    rw [show c :: l = [c] ++ l from rfl, escapeChars_append]
  rw [h]
  congr 1
  by_cases h1 : c = '\\'
  · subst h1; decide
  by_cases h2 : c = '"'
  · subst h2; decide
  by_cases h3 : c = '$'
  · subst h3; decide
  by_cases h4 : c = bq
  · subst h4; decide
  by_cases h5 : c = '!'
  · subst h5; decide
  simp [escapeChars, replace1, escChar, h1, h2, h3, h4, h5]

theorem dqUnescape_cons (c : Char) (l : List Char) (h : ¬ c = '\\') :
    dqUnescape (c :: l) = c :: dqUnescape l := by
  rw [dqUnescape.eq_def]
  simp [h]

theorem dqUnescape_bs (d : Char) (l : List Char)
    (h : d = '$' ∨ d = bq ∨ d = '"' ∨ d = '\\') :
    dqUnescape ('\\' :: d :: l) = d :: dqUnescape l := by
  rw [dqUnescape.eq_def]
  simp [h]

theorem dqUnescape_escapeChars (l : List Char) (h : ∀ c ∈ l, c ≠ '!') :
    dqUnescape (escapeChars l) = l := by
  induction l with
  | nil => rfl
  | cons c cs ih =>
    have hc : c ≠ '!' := h c (by simp)
    have hcs : ∀ x ∈ cs, x ≠ '!' := fun x hx => h x (by simp [hx])
    rw [escapeChars_cons]
    by_cases hsp : c = '\\' ∨ c = '"' ∨ c = '$' ∨ c = bq ∨ c = '!'
    · have he : escChar c = ['\\', c] := by simp [escChar, hsp]
      have hspec : c = '$' ∨ c = bq ∨ c = '"' ∨ c = '\\' := by
        rcases hsp with h1 | h1 | h1 | h1 | h1
        · exact Or.inr (Or.inr (Or.inr h1))
        · exact Or.inr (Or.inr (Or.inl h1))
        · exact Or.inl h1
        · exact Or.inr (Or.inl h1)
        · exact absurd h1 hc
      rw [he, show (['\\', c] : List Char) ++ escapeChars cs
            = '\\' :: c :: escapeChars cs from rfl,
          dqUnescape_bs c _ hspec, ih hcs]
    · have he : escChar c = [c] := by simp [escChar, hsp]
      have hbs : ¬ c = '\\' := fun hh => hsp (Or.inl hh)
      rw [he, show ([c] : List Char) ++ escapeChars cs = c :: escapeChars cs from rfl,
          dqUnescape_cons c _ hbs, ih hcs]

/-! Helper lemmas about the execute body. -/

theorem propChain_obj_ok (fields : List (String × Dyn)) (keys : List String) (d : Dyn) :
    ∃ v, propChain (Dyn.obj fields) keys d = .ok v := by
  induction keys with
  | nil => exact ⟨d, rfl⟩
  | cons k ks ih =>
    obtain ⟨v, hv⟩ := ih
    cases hm : mapGet fields k with
    | none => exact ⟨v, by simp [propChain, getProp, hm, hv, Bind.bind, Except.bind]⟩
    | some w =>
      by_cases ht : truthy w
      · exact ⟨w, by simp [propChain, getProp, hm, ht, Bind.bind, Except.bind, Pure.pure, Except.pure]⟩
      · exact ⟨v, by simp [propChain, getProp, hm, ht, hv, Bind.bind, Except.bind]⟩

theorem propChainOpt_sid (fields : List (String × Dyn)) (T1 : String)
    (hf : mapGet fields "sessionId" = some (Dyn.str T1)) (hT : T1 ≠ "") :
    propChainOpt (Dyn.obj fields) ["sessionId", "session_id"]
      = .ok (some (Dyn.str T1)) := by
  have htr : truthy (Dyn.str T1) = true := by simp [truthy, hT]
  simp [propChainOpt, getProp, hf, htr, Bind.bind, Except.bind, Pure.pure, Except.pure]

theorem updateSessions_get (tbl : List (String × SessionInfo)) (uid : String)
    (sid : Dyn) (now : Nat) :
    ∃ info, mapGet (updateSessions tbl uid sid now) uid = some info ∧
      info.sessionId = sid := by
  unfold updateSessions
  cases hm : mapGet tbl uid with
  | some sess => exact ⟨_, mapGet_mapSet_self _ _ _, rfl⟩
  | none => exact ⟨_, mapGet_mapSet_self _ _ _, rfl⟩

theorem resume_suffix_ne (base x : String) :
    base ++ " --resume " ++ x ≠ base := by
  intro heq
  have hlen := congrArg String.length heq
  rw [String.length_append, String.length_append] at hlen
  have h10 : (" --resume " : String).length = 10 := rfl
  rw [h10] at hlen
  omega

/-! Claim theorems. -/

/-- C3 (code evaluated at the failing input): sanitizePrompt strips only the
three implemented patterns; the session-hijacking resume flag and the
output-format flag survive sanitization unchanged, and the surviving resume
flag text is embedded into the constructed external command. -/
theorem resume_flag_not_stripped :
    sanitizePrompt "--resume 123abc" = "--resume 123abc" ∧
    buildCommand "--resume 123abc" "u1" {} []
      = "claude -p \"--resume 123abc\" --output-format json --allowedTools \"Read,Write,Edit,Bash,Glob,Grep,WebFetch,WebSearch\"" ∧
    sanitizePrompt "--output-format text" = "--output-format text" := by
  refine ⟨by decide, by decide, by decide⟩

/-- C5 (counterexample): with an empty prompt and an empty userId, execute
does not reject: the external process is invoked and the call can even
succeed. This contradicts the claimed RejectedInput behaviour. -/
theorem empty_inputs_invoked_anyway :
    (claude_code_execute (fun _ => none) (Except.ok ("ok", "")) 0 1 "" ""
        {} (BridgeState.mk [] [])).2.2.invoked = true ∧
    (claude_code_execute (fun _ => none) (Except.ok ("ok", "")) 0 1 "" ""
        {} (BridgeState.mk [] [])).1.success = true := by
  exact ⟨rfl, by decide⟩

/-- C5 (amended): execute performs no emptiness validation at all: even for
the empty prompt and the empty userId, the command is constructed and the
external subprocess is invoked on every call. -/
theorem empty_inputs_no_rejection (jsonParse : String → Option Dyn)
    (outcome : Except String (String × String)) (t1 t2 : Nat)
    (options : ExecuteOptions) (st : BridgeState) :
    (claude_code_execute jsonParse outcome t1 t2 "" "" options st).2.2.invoked
      = true := rfl

/-- C6 (counterexample): escaping the exclamation mark breaks the round
trip: the escaped form of the one-character prompt bang is backslash-bang,
which a POSIX shell reading a double-quoted word keeps as two characters. -/
theorem bang_roundtrip_fails :
    escapeForShell "!" = "\\!" ∧ dqUnescapeStr (escapeForShell "!") ≠ "!" := by
  exact ⟨by decide, by decide⟩

/-- C6 (amended): for every prompt containing no exclamation mark, the
escaped double-quoted argument reads back under shell double-quote rules as
exactly the original text. -/
theorem escape_roundtrip_without_bang (s : String)
    (h : ∀ c ∈ s.data, c ≠ '!') :
    dqUnescapeStr (escapeForShell s) = s := by
  unfold dqUnescapeStr escapeForShell
  rw [show (String.mk (escapeChars s.data)).data = escapeChars s.data from rfl]
  rw [dqUnescape_escapeChars s.data h]

theorem escape_roundtrip_without_bang_witness :
    dqUnescapeStr (escapeForShell "a$\"\\x`end") = "a$\"\\x`end" :=
  escape_roundtrip_without_bang "a$\"\\x`end" (by decide)

/-- C8: a message matching any always-direct pattern is routed directly
(route = false), regardless of any agent-trigger match. -/
theorem router_direct_priority (cfg : RouterConfig) (text p : String)
    (hmem : p ∈ cfg.alwaysDirect) (hmatch : containsCI text p = true) :
    routerRoute cfg text = false := by
  have h : cfg.alwaysDirect.any (fun q => containsCI text q) = true :=
    List.any_eq_true.mpr ⟨p, hmem, hmatch⟩
  simp [routerRoute, h]

theorem router_direct_priority_witness :
    containsCI "what is the weather in the file" "file" = true ∧
    routerRoute (RouterConfig.mk ["weather"] ["file"] false)
      "what is the weather in the file" = false :=
  ⟨by decide,
   router_direct_priority (RouterConfig.mk ["weather"] ["file"] false)
     "what is the weather in the file" "weather" (by decide) (by decide)⟩

/-- C10: clearSession always returns whether a record existed, removes the
record, and called twice in a row from a state holding a record it returns
true then false. -/
theorem clear_session_reports_existence (uid : String) (st : BridgeState) :
    (claude_code_clear_session uid st).1 = (mapGet st.sessions uid).isSome ∧
    mapGet (claude_code_clear_session uid st).2.sessions uid = none ∧
    ((mapGet st.sessions uid).isSome = true →
      (claude_code_clear_session uid st).1 = true ∧
      (claude_code_clear_session uid
        (claude_code_clear_session uid st).2).1 = false) := by
  refine ⟨rfl, ?_, ?_⟩
  · exact mapGet_mapDelete_self st.sessions uid
  · intro h
    refine ⟨h, ?_⟩
    show (mapGet (mapDelete st.sessions uid) uid).isSome = false
    rw [mapGet_mapDelete_self]
    rfl

theorem failureResult_invariant (e : String) (elapsed : Nat) :
    ResultInvariant (failureResult e elapsed) := by
  constructor
  · intro _
    refine ⟨rfl, ?_⟩
    by_cases he : e = ""
    · subst he
      exact ⟨"Claude Code execution failed", rfl, by decide⟩
    · exact ⟨e, by simp [failureResult, he], he⟩
  · intro hcontra
    simp [failureResult] at hcontra

theorem execOutcome_invariant (jsonParse : String → Option Dyn)
    (outcome : Except String (String × String)) (t1 t2 : Nat)
    (uid : String) (tbl : List (String × SessionInfo)) :
    ResultInvariant (execOutcome jsonParse outcome t1 t2 uid tbl).1 ∧
    (∀ e, outcome = Except.error e →
      (execOutcome jsonParse outcome t1 t2 uid tbl).1.success = false) := by
  rcases outcome with e | ⟨stdout, stderr⟩
  · exact ⟨failureResult_invariant e (t2 - t1), fun e2 _ => rfl⟩
  · refine ⟨?_, fun e2 he2 => by cases he2⟩
    simp only [execOutcome]
    split
    · exact failureResult_invariant _ _
    · split
      · exact failureResult_invariant _ _
      · constructor
        · intro hc
          exact absurd hc (by simp)
        · intro _
          rfl

/-- C4: every result value returned by execute satisfies the result
invariant (failure carries empty output and a non-empty error, success
carries no error), and every subprocess failure outcome is captured into a
failed result value; execute is a total function, so nothing escapes it. -/
theorem result_invariant_holds (jsonParse : String → Option Dyn)
    (outcome : Except String (String × String)) (t1 t2 : Nat)
    (prompt userId : String) (options : ExecuteOptions) (st : BridgeState) :
    ResultInvariant
      (claude_code_execute jsonParse outcome t1 t2 prompt userId options st).1 ∧
    (∀ e, outcome = Except.error e →
      (claude_code_execute jsonParse outcome t1 t2 prompt userId
        options st).1.success = false) :=
  execOutcome_invariant jsonParse outcome t1 t2 userId st.sessions

theorem result_invariant_holds_witness :
    (claude_code_execute (fun _ => none) (Except.error "boom") 0 5 "p" "u" {}
      (BridgeState.mk [] [])).1.output = Dyn.str "" ∧
    (claude_code_execute (fun _ => none) (Except.ok ("hi", "")) 0 5 "p" "u" {}
      (BridgeState.mk [] [])).1.error = none := by
  constructor
  · exact ((result_invariant_holds (fun _ => none) (Except.error "boom") 0 5 "p" "u" {}
      (BridgeState.mk [] [])).1.1 (by decide)).1
  · exact (result_invariant_holds (fun _ => none) (Except.ok ("hi", "")) 0 5 "p" "u" {}
      (BridgeState.mk [] [])).1.2 (by decide)

/-- C7: a subprocess run that completes without error but whose standard
output is not parseable as JSON yields a successful result whose output is
the raw standard output. -/
theorem parse_degraded_is_success (jsonParse : String → Option Dyn)
    (stdout stderr : String) (t1 t2 : Nat) (prompt userId : String)
    (options : ExecuteOptions) (st : BridgeState)
    (h : jsonParse stdout = none) :
    (claude_code_execute jsonParse (Except.ok (stdout, stderr)) t1 t2 prompt
      userId options st).1.success = true ∧
    (claude_code_execute jsonParse (Except.ok (stdout, stderr)) t1 t2 prompt
      userId options st).1.output = Dyn.str stdout := by
  have hres : (claude_code_execute jsonParse (Except.ok (stdout, stderr)) t1 t2
        prompt userId options st).1
      = (execOutcome jsonParse (Except.ok (stdout, stderr)) t1 t2 userId
          st.sessions).1 := rfl
  have hopt : propChainOpt (Dyn.obj [("content", Dyn.str stdout)])
      ["sessionId", "session_id"] = Except.ok none := rfl
  have hchain : propChain (Dyn.obj [("content", Dyn.str stdout)])
      ["result", "content", "response"] (Dyn.str stdout)
      = Except.ok (Dyn.str stdout) := by
    by_cases hs : stdout = ""
    · subst hs
      rfl
    · have ht : truthy (Dyn.str stdout) = true := by simp [truthy, hs]
      simp [propChain, getProp, mapGet, ht, Bind.bind, Except.bind,
        Pure.pure, Except.pure]
  rw [hres]
  constructor <;> simp [execOutcome, h, hopt, hchain, truthyOpt]

theorem parse_degraded_is_success_witness :
    (claude_code_execute (fun _ => none) (Except.ok ("plain output", "")) 0 2
      "q" "u2" {} (BridgeState.mk [] [])).1.success = true ∧
    (claude_code_execute (fun _ => none) (Except.ok ("plain output", "")) 0 2
      "q" "u2" {} (BridgeState.mk [] [])).1.output = Dyn.str "plain output" :=
  parse_degraded_is_success (fun _ => none) "plain output" "" 0 2 "q" "u2" {}
    (BridgeState.mk [] []) rfl

/-- C9: in every reachable state of the bridge the in-flight process table
is empty, because claude_code_execute never records the spawned process;
consequently claude_code_cancel returns false for every user in every
reachable state and leaves the state unchanged. -/
theorem active_process_table_always_empty (st : BridgeState)
    (h : Reachable st) :
    st.activeProcesses = [] ∧
    ∀ uid, claude_code_cancel uid st = (false, st) := by
  have hmain : st.activeProcesses = [] := by
    induction h with
    | empty => rfl
    | step_execute jp oc t1 t2 p uid opts st0 h0 ih => exact ih
    | step_cancel uid st0 h0 ih =>
      have hc : claude_code_cancel uid st0 = (false, st0) := by
        unfold claude_code_cancel
        rw [ih]
        rfl
      rw [hc]
      exact ih
    | step_clear uid st0 h0 ih => exact ih
  refine ⟨hmain, fun uid => ?_⟩
  unfold claude_code_cancel
  rw [hmain]
  rfl

theorem active_process_table_always_empty_witness :
    (BridgeState.mk [] []).activeProcesses = [] ∧
    ∀ uid, claude_code_cancel uid (BridgeState.mk [] [])
      = (false, BridgeState.mk [] []) :=
  active_process_table_always_empty (BridgeState.mk [] []) Reachable.empty

theorem buildBase_split (prompt : String) (options : ExecuteOptions)
    (ts : List String) (h : options.allowedTools = some ts) :
    ∃ a b, buildBase prompt options
      = a ++ (String.intercalate "," ts ++ b) := by
  cases hap : options.appendSystemPrompt with
  | none =>
    refine ⟨"claude -p \"" ++ escapeForShell (sanitizePrompt prompt)
      ++ "\" --output-format json " ++ "--allowedTools \"", "\"", ?_⟩
    simp only [buildBase, h, hap, Option.getD, String.append_assoc]
  | some s =>
    by_cases hs : s = ""
    · subst hs
      refine ⟨"claude -p \"" ++ escapeForShell (sanitizePrompt prompt)
        ++ "\" --output-format json " ++ "--allowedTools \"", "\"", ?_⟩
      simp only [buildBase, h, hap, Option.getD, if_pos, String.append_assoc]
    · refine ⟨"claude -p \"" ++ escapeForShell (sanitizePrompt prompt)
        ++ "\" --output-format json " ++ "--allowedTools \"",
        "\"" ++ (" --append-system-prompt \"" ++ (escapeForShell s ++ "\"")), ?_⟩
      simp only [buildBase, h, hap, Option.getD, if_neg hs, String.append_assoc]

/-- C1 (counterexample): a capability list containing a name outside the
fixed enumeration, or an empty capability list, is not rejected: the
subprocess is invoked and the unknown or empty list is joined verbatim into
the command. -/
theorem unknown_capability_invoked_anyway :
    (claude_code_execute (fun _ => none) (Except.ok ("done", "")) 0 1 "hi" "u1"
        { allowedTools := some ["FooBar"] } (BridgeState.mk [] [])).2.2.invoked
      = true ∧
    (claude_code_execute (fun _ => none) (Except.ok ("done", "")) 0 1 "hi" "u1"
        { allowedTools := some ["FooBar"] } (BridgeState.mk [] [])).2.2.command
      = "claude -p \"hi\" --output-format json --allowedTools \"FooBar\"" ∧
    (claude_code_execute (fun _ => none) (Except.ok ("done", "")) 0 1 "hi" "u1"
        { allowedTools := some [] } (BridgeState.mk [] [])).2.2.invoked = true ∧
    (claude_code_execute (fun _ => none) (Except.ok ("done", "")) 0 1 "hi" "u1"
        { allowedTools := some [] } (BridgeState.mk [] [])).2.2.command
      = "claude -p \"hi\" --output-format json --allowedTools \"\"" ∧
    "FooBar" ∉ DEFAULT_TOOLS := by
  refine ⟨rfl, by decide, rfl, by decide, by decide⟩

/-- C1 (amended): execute performs no validation of the capability list: on
every call the external process is invoked, and whatever list the caller
supplied (unknown names and the empty list included) is passed through,
comma-joined, inside the constructed command. -/
theorem capability_list_passed_through (jsonParse : String → Option Dyn)
    (outcome : Except String (String × String)) (t1 t2 : Nat)
    (prompt userId : String) (ts : List String) (options : ExecuteOptions)
    (st : BridgeState) (h : options.allowedTools = some ts) :
    (claude_code_execute jsonParse outcome t1 t2 prompt userId options
      st).2.2.invoked = true ∧
    ∃ a b, (claude_code_execute jsonParse outcome t1 t2 prompt userId options
      st).2.2.command = a ++ (String.intercalate "," ts ++ b) := by
  refine ⟨rfl, ?_⟩
  have hcmd : (claude_code_execute jsonParse outcome t1 t2 prompt userId
        options st).2.2.command
      = buildCommand prompt userId options st.sessions := rfl
  rw [hcmd]
  obtain ⟨a, b, hsplit⟩ := buildBase_split prompt options ts h
  cases hm : mapGet st.sessions userId with
  | none =>
    refine ⟨a, b, ?_⟩
    simp only [buildCommand, hm]
    exact hsplit
  | some sess =>
    by_cases hn : options.newSession = true
    · refine ⟨a, b, ?_⟩
      simp only [buildCommand, hm, hn, if_true]
      exact hsplit
    · refine ⟨a, b ++ (" --resume " ++ jsToString sess.sessionId), ?_⟩
      simp only [buildCommand, hm, hn, if_false, Bool.false_eq_true]
      rw [hsplit]
      simp only [String.append_assoc]

theorem capability_list_passed_through_witness :
    (claude_code_execute (fun _ => none) (Except.ok ("done", "")) 0 1 "task"
      "u9" { allowedTools := some ["Alpha", "Beta"] }
      (BridgeState.mk [] [])).2.2.invoked = true ∧
    ∃ a b, (claude_code_execute (fun _ => none) (Except.ok ("done", "")) 0 1
      "task" "u9" { allowedTools := some ["Alpha", "Beta"] }
      (BridgeState.mk [] [])).2.2.command
        = a ++ (String.intercalate "," ["Alpha", "Beta"] ++ b) :=
  capability_list_passed_through (fun _ => none) (Except.ok ("done", "")) 0 1
    "task" "u9" ["Alpha", "Beta"] { allowedTools := some ["Alpha", "Beta"] }
    (BridgeState.mk [] []) rfl

/-- C2: a first execute call whose parsed response carries a non-empty
session token stores that token for the user; a second call for the same
user then links the constructed command to that token with the resume flag
exactly when newSession is not set; with newSession set the resume flag is
never appended; with no stored session no resume flag is appended; and a
command with the resume flag appended is never equal to one without it. -/
theorem session_resume_linkage
    (jsonParse : String → Option Dyn) (t1 t2 : Nat) (p1 uid : String)
    (opts1 : ExecuteOptions) (st0 : BridgeState) (stdout stderr : String)
    (fields : List (String × Dyn)) (T1 : String)
    (hp : jsonParse stdout = some (Dyn.obj fields))
    (hf : mapGet fields "sessionId" = some (Dyn.str T1))
    (hT : T1 ≠ "") :
    (∃ info,
      mapGet (claude_code_execute jsonParse (Except.ok (stdout, stderr)) t1 t2
        p1 uid opts1 st0).2.1.sessions uid = some info ∧
      info.sessionId = Dyn.str T1) ∧
    (∀ jp2 oc2 t3 t4 (p2 : String) (opts2 : ExecuteOptions),
      opts2.newSession = false →
      (claude_code_execute jp2 oc2 t3 t4 p2 uid opts2
        (claude_code_execute jsonParse (Except.ok (stdout, stderr)) t1 t2
          p1 uid opts1 st0).2.1).2.2.command
        = buildBase p2 opts2 ++ " --resume " ++ T1) ∧
    (∀ jp2 oc2 t3 t4 (p2 : String) (opts2 : ExecuteOptions),
      opts2.newSession = true →
      (claude_code_execute jp2 oc2 t3 t4 p2 uid opts2
        (claude_code_execute jsonParse (Except.ok (stdout, stderr)) t1 t2
          p1 uid opts1 st0).2.1).2.2.command
        = buildBase p2 opts2) ∧
    (∀ (p3 uid3 : String) (opts3 : ExecuteOptions) (st3 : BridgeState),
      mapGet st3.sessions uid3 = none →
      buildCommand p3 uid3 opts3 st3.sessions = buildBase p3 opts3) ∧
    (∀ (p4 : String) (opts4 : ExecuteOptions) (x : String),
      buildBase p4 opts4 ++ " --resume " ++ x ≠ buildBase p4 opts4) := by
  have hsess : (claude_code_execute jsonParse (Except.ok (stdout, stderr)) t1
        t2 p1 uid opts1 st0).2.1.sessions
      = updateSessions st0.sessions uid (Dyn.str T1) t2 := by
    show (execOutcome jsonParse (Except.ok (stdout, stderr)) t1 t2 uid
      st0.sessions).2 = _
    obtain ⟨v, hv⟩ :=
      propChain_obj_ok fields ["result", "content", "response"] (Dyn.str stdout)
    have hopt := propChainOpt_sid fields T1 hf hT
    simp [execOutcome, hp, hopt, hv, truthyOpt, truthy, hT]
  obtain ⟨info, hget, hsid⟩ := updateSessions_get st0.sessions uid (Dyn.str T1) t2
  refine ⟨⟨info, ?_, hsid⟩, ?_, ?_, ?_, ?_⟩
  · rw [hsess]
    exact hget
  · intro jp2 oc2 t3 t4 p2 opts2 hns
    have hcmd : (claude_code_execute jp2 oc2 t3 t4 p2 uid opts2
        (claude_code_execute jsonParse (Except.ok (stdout, stderr)) t1 t2
          p1 uid opts1 st0).2.1).2.2.command
        = buildCommand p2 uid opts2
          (claude_code_execute jsonParse (Except.ok (stdout, stderr)) t1 t2
            p1 uid opts1 st0).2.1.sessions := rfl
    rw [hcmd, hsess]
    simp [buildCommand, hget, hns, hsid, jsToString]
  · intro jp2 oc2 t3 t4 p2 opts2 hns
    have hcmd : (claude_code_execute jp2 oc2 t3 t4 p2 uid opts2
        (claude_code_execute jsonParse (Except.ok (stdout, stderr)) t1 t2
          p1 uid opts1 st0).2.1).2.2.command
        = buildCommand p2 uid opts2
          (claude_code_execute jsonParse (Except.ok (stdout, stderr)) t1 t2
            p1 uid opts1 st0).2.1.sessions := rfl
    rw [hcmd, hsess]
    simp [buildCommand, hget, hns]
  · intro p3 uid3 opts3 st3 h3
    simp [buildCommand, h3]
  · intro p4 opts4 x
    exact resume_suffix_ne _ x

theorem session_resume_linkage_witness :
    (claude_code_execute (fun _ => none) (Except.error "later") 0 3 "next" "u1"
      {} (claude_code_execute
        (fun s => if s = "O" then some (Dyn.obj [("sessionId", Dyn.str "s-1")])
          else none)
        (Except.ok ("O", "")) 0 1 "hello" "u1" {}
        (BridgeState.mk [] [])).2.1).2.2.command
      = buildBase "next" {} ++ " --resume " ++ "s-1" :=
  (session_resume_linkage
    (fun s => if s = "O" then some (Dyn.obj [("sessionId", Dyn.str "s-1")])
      else none)
    0 1 "hello" "u1" {} (BridgeState.mk [] []) "O" ""
    [("sessionId", Dyn.str "s-1")] "s-1" rfl rfl (by decide)).2.1
    (fun _ => none) (Except.error "later") 0 3 "next" {} rfl

theorem clear_session_reports_existence_witness :
    (claude_code_clear_session "u1"
      (BridgeState.mk [("u1", SessionInfo.mk (Dyn.str "s-1") 0 0 1)] [])).1 = true ∧
    (claude_code_clear_session "u1"
      (claude_code_clear_session "u1"
        (BridgeState.mk [("u1", SessionInfo.mk (Dyn.str "s-1") 0 0 1)] [])).2).1
      = false :=
  (clear_session_reports_existence "u1"
    (BridgeState.mk [("u1", SessionInfo.mk (Dyn.str "s-1") 0 0 1)] [])).2.2
    (by decide)

end CoworkBridge
